/-
Verification of the medication-label rendering core
(`src/medication_label.py`): the layout engine `draw_label` and the page
sequencer `generate_pdf` are shallowly embedded as producers of a list of
canvas drawing commands, and the documented layout / pagination properties
are proved about that embedding.

Modelling conventions:
* A reportlab canvas call becomes a `Cmd` constructor; a call to
  `draw_label` or `generate_pdf` returns the list of commands it would
  issue, in order.
* Coordinates are exact rationals; `mm` is reportlab's millimetre unit,
  72 / 25.4 points.
* `FONT_NAME` (resolved from the filesystem at startup in the source) and
  the canvas text-metric function `c.stringWidth` are opaque parameters of
  the embedding: no claim depends on their values.
* Python's `datetime.date` (only `+ timedelta(days=k)`, `.month`, `.day`
  and `.weekday()` are used by the core) is modelled by `Date` with
  proleptic-Gregorian day arithmetic, `weekday` returning Monday = 0.
-/
import Mathlib

namespace MedicationLabel

/-! ### Calendar dates (model of Python `datetime.date`) -/

structure Date where
  year : Nat
  month : Nat
  day : Nat
  deriving DecidableEq, Repr

/-- Gregorian leap-year rule, as used by Python's `datetime`. -/
def isLeap (y : Nat) : Bool :=
  (y % 4 == 0 && y % 100 != 0) || y % 400 == 0

def daysInMonth (y m : Nat) : Nat :=
  if m = 2 then (if isLeap y then 29 else 28)
  else if m = 4 ∨ m = 6 ∨ m = 9 ∨ m = 11 then 30
  else 31

/-- Successor day, rolling over month and year boundaries. -/
def nextDay (d : Date) : Date :=
  if d.day < daysInMonth d.year d.month then ⟨d.year, d.month, d.day + 1⟩
  else if d.month < 12 then ⟨d.year, d.month + 1, 1⟩
  else ⟨d.year + 1, 1, 1⟩

/-- `d + timedelta(days := n)` for a non-negative day count. -/
def addDays (d : Date) : Nat → Date
  | 0 => d
  | n + 1 => nextDay (addDays d n)

/-- Days in all years strictly before year `y` (proleptic Gregorian);
`daysBeforeYear y + 1` is Python's `date(y, 1, 1).toordinal()`. -/
def daysBeforeYear (y : Nat) : Nat :=
  365 * (y - 1) + (y - 1) / 4 - (y - 1) / 100 + (y - 1) / 400

/-- Days in the months of year `y` strictly before month `m`. -/
def daysBeforeMonth (y m : Nat) : Nat :=
  ((List.range (m - 1)).map (fun i => daysInMonth y (i + 1))).sum

/-- Python's `date.toordinal()`: day 1 is 0001-01-01. -/
def toOrdinal (d : Date) : Nat :=
  daysBeforeYear d.year + daysBeforeMonth d.year d.month + d.day

/-- Python's `date.weekday()`: Monday = 0 … Sunday = 6
(0001-01-01, ordinal 1, was a Monday). -/
def Date.weekday (d : Date) : Nat :=
  (toOrdinal d + 6) % 7

/-! ### Canvas command language -/

inductive Color where
  | black
  | white
  | red
  | blue
  deriving DecidableEq, Repr

/-- One reportlab canvas call, as issued by the rendering core. -/
inductive Cmd where
  | setFillColor (c : Color)
  | rect (x y w h : ℚ) (fill stroke : Bool)
  | setFont (font : String) (size : ℚ)
  | drawCentredString (x y : ℚ) (text : String)
  | setStrokeColor (c : Color)
  | setLineWidth (w : ℚ)
  | line (x1 y1 x2 y2 : ℚ)
  | showPage
  deriving DecidableEq, Repr

/-! ### Configuration constants (`src/medication_label.py`, lines 26-36) -/

/-- reportlab's `mm` unit: 72 / 25.4 points. -/
def mm : ℚ := 360 / 127

def LABEL_WIDTH : ℚ := 29 * mm

def LABEL_HEIGHT : ℚ := 52 * mm

def WEEKDAYS : List String := ["月", "火", "水", "木", "金", "土", "日"]

def HIRAGANA_MAP : List (String × String) :=
  [("朝食後", "あさ"), ("昼食後", "ひる"), ("夕食後", "ゆう"),
   ("朝食前", "あさ前"), ("昼食前", "ひる前"), ("夕食前", "ゆう前"),
   ("就寝前", "ねるまえ"), ("起床時", "おきぬけ")]

/-- Python's `HIRAGANA_MAP.get(timing, timing)`: the localized substitute
when the table has an entry for that exact string, else the input. -/
def hiraganaGet (timing : String) : String :=
  (HIRAGANA_MAP.lookup timing).getD timing

/-! ### Layout engine (`draw_label`, lines 83-166) -/

/-- `draw_label`: renders one label page, returning the list of canvas
commands it issues, in source order.  `FONT_NAME` and `stringWidth` stand
for the global font name and the canvas metric function `c.stringWidth`.
`name_reading` is accepted and unused, as in the source. -/
def draw_label (FONT_NAME : String) (stringWidth : String → ℚ → ℚ)
    (facility name : String) (date : Date) (timing : String)
    (use_hiragana : Bool) (show_date : Bool) (show_facility : Bool)
    (name_reading : String) : List Cmd :=
  let w := LABEL_WIDTH
  let h := LABEL_HEIGHT
  let cx := w / 2
  let header : List Cmd :=
    [Cmd.setFillColor Color.white, Cmd.rect 0 0 w h true false,
     Cmd.setFillColor Color.black]
  let y_cursor := h
  let fs := show_facility && !(facility == "")
  let facilityCmds : List Cmd :=
    if fs then
      [Cmd.setFont FONT_NAME 8,
       Cmd.drawCentredString cx (y_cursor - 4 * mm) facility]
    else []
  let y_cursor := if fs then y_cursor - 4 * mm else y_cursor
  let name_display := name ++ " 様"
  let name_font : ℚ := if name.length ≤ 6 then 13 else 11
  let y_cursor := y_cursor - 6 * mm
  let nameCmds : List Cmd :=
    [Cmd.setFont FONT_NAME name_font,
     Cmd.drawCentredString cx y_cursor name_display]
  let line_y := if !show_date then y_cursor - 1 * mm else y_cursor - 2 * mm
  let lineCmds : List Cmd :=
    [Cmd.setStrokeColor Color.black, Cmd.setLineWidth (1 / 2),
     Cmd.line (2 * mm) line_y (w - 2 * mm) line_y]
  let dateCmds : List Cmd :=
    if show_date then
      let date_str := toString date.month ++ "/" ++ toString date.day
      let weekday_idx := date.weekday
      let weekday_str := "(" ++ WEEKDAYS.getD weekday_idx "" ++ ")"
      let col :=
        if weekday_idx = 6 then Color.red
        else if weekday_idx = 5 then Color.blue
        else Color.black
      [Cmd.setFillColor col, Cmd.setFont FONT_NAME 23,
       Cmd.drawCentredString cx (line_y - 11 * mm) date_str,
       Cmd.setFont FONT_NAME 13,
       Cmd.drawCentredString cx (line_y - 19 * mm) weekday_str]
    else []
  let box_bottom : ℚ := (3 / 2) * mm
  let box_top := if show_date then line_y - 24 * mm else line_y
  let box_height := box_top - box_bottom
  let box_center_y := box_bottom + box_height / 2
  let display_text := if use_hiragana then hiraganaGet timing else timing
  let text_len := display_text.length
  let font_size : ℚ :=
    if text_len ≤ 3 then 26
    else if text_len ≤ 5 then 20
    else if text_len ≤ 7 then 16
    else 14
  let timingCmds : List Cmd :=
    [Cmd.setFillColor Color.black, Cmd.setFont FONT_NAME font_size,
     Cmd.drawCentredString cx box_center_y display_text]
  let text_width := stringWidth display_text font_size
  let underline_y := box_center_y - 10
  let underlineCmds : List Cmd :=
    [Cmd.setStrokeColor Color.black, Cmd.setLineWidth (1 / 2),
     Cmd.line (cx - text_width / 2) underline_y (cx + text_width / 2)
       underline_y]
  header ++ facilityCmds ++ nameCmds ++ lineCmds ++ dateCmds ++ timingCmds
    ++ underlineCmds

/-! ### Page sequencer (`generate_pdf`, lines 168-194) -/

/-- The body shared by both loop nests of `generate_pdf`: if this is not
the first page, issue `showPage`, then issue the label's commands.  The
state is the pair `(first_page, commands so far)`. -/
def emit (FONT_NAME : String) (stringWidth : String → ℚ → ℚ)
    (facility name : String) (use_hiragana show_date show_facility : Bool)
    (name_reading : String) (st : Bool × List Cmd) (p : Date × String) :
    Bool × List Cmd :=
  let acc := if !st.1 then st.2 ++ [Cmd.showPage] else st.2
  (false,
   acc ++ draw_label FONT_NAME stringWidth facility name p.1 p.2
     use_hiragana show_date show_facility name_reading)

/-- `generate_pdf`: expands the job into label renders in one of the two
loop orders, with a `showPage` boundary before every render except the
first, and returns the full command list of the finished document. -/
def generate_pdf (FONT_NAME : String) (stringWidth : String → ℚ → ℚ)
    (facility name : String) (start_date : Date) (days : Nat)
    (timings : List String) (sort_by_date : Bool) (use_hiragana : Bool)
    (show_date : Bool) (show_facility : Bool) (name_reading : String) :
    List Cmd :=
  let step := emit FONT_NAME stringWidth facility name use_hiragana
    show_date show_facility name_reading
  let st :=
    if sort_by_date then
      (List.range days).foldl (fun st day_offset =>
        let current_date := addDays start_date day_offset
        timings.foldl (fun st timing => step st (current_date, timing)) st)
        (true, [])
    else
      timings.foldl (fun st timing =>
        (List.range days).foldl (fun st day_offset =>
          let current_date := addDays start_date day_offset
          step st (current_date, timing)) st)
        (true, [])
  st.2

/-- The ordered `(date, timing)` pairs enumerated by `generate_pdf`'s two
loop nests: day-major when `sort_by_date`, timing-major otherwise. -/
def pairsFor (start_date : Date) (days : Nat) (timings : List String)
    (sort_by_date : Bool) : List (Date × String) :=
  if sort_by_date then
    (List.range days).flatMap (fun day_offset =>
      timings.map (fun timing => (addDays start_date day_offset, timing)))
  else
    timings.flatMap (fun timing =>
      (List.range days).map (fun day_offset =>
        (addDays start_date day_offset, timing)))

/-! ### Interpreting command lists: graphics state and visible ink

reportlab draws each primitive with the fill / stroke color and font that
are current when the drawing call is issued.  `inksFrom` replays a command
list from a given graphics state and records every visible mark together
with the attributes in effect when it was made. -/

structure GState where
  fill : Color
  stroke : Color
  font : String
  fontSize : ℚ
  deriving DecidableEq, Repr

def applyCmd (s : GState) : Cmd → GState
  | Cmd.setFillColor c => { s with fill := c }
  | Cmd.setStrokeColor c => { s with stroke := c }
  | Cmd.setFont f sz => { s with font := f, fontSize := sz }
  | _ => s

/-- A visible mark: centred text with its fill color and font, a stroked
line segment with its stroke color, or a page break. -/
inductive Ink where
  | text (x y : ℚ) (t : String) (fill : Color) (font : String) (size : ℚ)
  | seg (x1 y1 x2 y2 : ℚ) (stroke : Color)
  | page
  deriving DecidableEq, Repr

def inksFrom (s : GState) : List Cmd → List Ink
  | [] => []
  | c :: rest =>
    match c with
    | Cmd.drawCentredString x y t =>
      Ink.text x y t s.fill s.font s.fontSize :: inksFrom (applyCmd s c) rest
    | Cmd.line x1 y1 x2 y2 =>
      Ink.seg x1 y1 x2 y2 s.stroke :: inksFrom (applyCmd s c) rest
    | Cmd.showPage => Ink.page :: inksFrom (applyCmd s c) rest
    | _ => inksFrom (applyCmd s c) rest

/-- The text of a text ink. -/
def inkTextString : Ink → Option String
  | Ink.text _ _ t _ _ _ => some t
  | _ => none

/-- The font size of a text ink. -/
def inkTextSize : Ink → Option ℚ
  | Ink.text _ _ _ _ _ sz => some sz
  | _ => none

/-- The last piece of text drawn by a command list (on each label page
this is the dosing-timing text, drawn just before its underline). -/
def lastTextString (s : GState) (cmds : List Cmd) : Option String :=
  ((inksFrom s cmds).filterMap inkTextString).getLast?

/-- The font size of the last piece of text drawn by a command list. -/
def lastTextSize (s : GState) (cmds : List Cmd) : Option ℚ :=
  ((inksFrom s cmds).filterMap inkTextSize).getLast?

/-- The fill color of a text ink. -/
def inkTextFill : Ink → Option Color
  | Ink.text _ _ _ c _ _ => some c
  | _ => none

/-- The stroke color of a segment ink. -/
def inkSegStroke : Ink → Option Color
  | Ink.seg _ _ _ _ c => some c
  | _ => none

/-- The fill color in effect for the last piece of text drawn (on a label
page: the dosing-timing text). -/
def lastTextFill (s : GState) (cmds : List Cmd) : Option Color :=
  ((inksFrom s cmds).filterMap inkTextFill).getLast?

/-- The stroke color in effect for the last line stroked (on a label
page: the underline beneath the timing text). -/
def lastSegStroke (s : GState) (cmds : List Cmd) : Option Color :=
  ((inksFrom s cmds).filterMap inkSegStroke).getLast?

/-! ### Helper lemmas -/

theorem inksFrom_append (s : GState) (a b : List Cmd) :
    inksFrom s (a ++ b) = inksFrom s a ++ inksFrom (a.foldl applyCmd s) b := by
  induction a generalizing s with
  | nil => simp [inksFrom]
  | cons c rest ih =>
    cases c <;> simp [inksFrom, ih]

theorem foldl_flatMap {α β σ : Type _} (E : σ → β → σ) (l : List α)
    (g : α → List β) (st : σ) :
    (l.flatMap g).foldl E st
      = l.foldl (fun st a => (g a).foldl E st) st := by
  induction l generalizing st with
  | nil => rfl
  | cons a l ih => simp [List.flatMap_cons, List.foldl_append, ih]

theorem intercalate_cons_eq_flatMap (x : α) (a : List α) (l : List (List α)) :
    List.intercalate [x] (a :: l) = a ++ l.flatMap (fun b => x :: b) := by
  induction l generalizing a with
  | nil => simp [List.intercalate]
  | cons b l ih =>
    simp only [List.intercalate, List.intersperse_cons₂, List.flatten_cons]
      at ih ⊢
    simp [ih, List.flatMap_cons]

theorem emit_foldl_false (FONT_NAME : String)
    (stringWidth : String → ℚ → ℚ) (facility name : String)
    (use_hiragana show_date show_facility : Bool) (name_reading : String)
    (ps : List (Date × String)) (acc : List Cmd) :
    ps.foldl
        (emit FONT_NAME stringWidth facility name use_hiragana show_date
          show_facility name_reading) (false, acc)
      = (false,
         acc ++ ps.flatMap (fun p =>
           Cmd.showPage
             :: draw_label FONT_NAME stringWidth facility name p.1 p.2
                  use_hiragana show_date show_facility name_reading)) := by
  induction ps generalizing acc with
  | nil => simp
  | cons p ps ih => simp [emit, ih]

theorem emit_foldl_true (FONT_NAME : String)
    (stringWidth : String → ℚ → ℚ) (facility name : String)
    (use_hiragana show_date show_facility : Bool) (name_reading : String)
    (ps : List (Date × String)) :
    (ps.foldl
        (emit FONT_NAME stringWidth facility name use_hiragana show_date
          show_facility name_reading) (true, [])).2
      = List.intercalate [Cmd.showPage]
          (ps.map (fun p =>
            draw_label FONT_NAME stringWidth facility name p.1 p.2
              use_hiragana show_date show_facility name_reading)) := by
  cases ps with
  | nil => simp [List.intercalate]
  | cons p ps =>
    have h1 : emit FONT_NAME stringWidth facility name use_hiragana
        show_date show_facility name_reading (true, []) p
      = (false,
         draw_label FONT_NAME stringWidth facility name p.1 p.2
           use_hiragana show_date show_facility name_reading) := by
      simp [emit]
    rw [List.foldl_cons, h1, emit_foldl_false, List.map_cons,
      intercalate_cons_eq_flatMap]
    simp [List.flatMap_def, Function.comp_def]

/-- `generate_pdf` is exactly the renders of `pairsFor`, in order, with a
single page break between consecutive renders. -/
theorem generate_pdf_eq_intercalate (FONT_NAME : String)
    (stringWidth : String → ℚ → ℚ) (facility name : String)
    (start_date : Date) (days : Nat) (timings : List String)
    (sort_by_date use_hiragana show_date show_facility : Bool)
    (name_reading : String) :
    generate_pdf FONT_NAME stringWidth facility name start_date days
        timings sort_by_date use_hiragana show_date show_facility
        name_reading
      = List.intercalate [Cmd.showPage]
          ((pairsFor start_date days timings sort_by_date).map (fun p =>
            draw_label FONT_NAME stringWidth facility name p.1 p.2
              use_hiragana show_date show_facility name_reading)) := by
  rw [← emit_foldl_true]
  cases sort_by_date with
  | false =>
    simp only [generate_pdf, pairsFor, Bool.false_eq_true, reduceIte]
    rw [foldl_flatMap]
    simp only [List.foldl_map]
  | true =>
    simp only [generate_pdf, pairsFor, reduceIte]
    rw [foldl_flatMap]
    simp only [List.foldl_map]

theorem pairsFor_length (start_date : Date) (days : Nat)
    (timings : List String) (sort_by_date : Bool) :
    (pairsFor start_date days timings sort_by_date).length
      = days * timings.length := by
  cases sort_by_date with
  | false =>
    simp [pairsFor, List.length_flatMap, Function.comp_def,
      List.map_const', Nat.mul_comm]
  | true =>
    simp [pairsFor, List.length_flatMap, Function.comp_def,
      List.map_const']

theorem map_append_flatMap_perm {β γ : Type _} (l2 : List β)
    (g : β → γ) (h : β → List γ) :
    (l2.map g ++ l2.flatMap h).Perm (l2.flatMap fun b => g b :: h b) := by
  induction l2 with
  | nil => simp
  | cons b l ih =>
    simp only [List.map_cons, List.flatMap_cons, List.cons_append]
    refine List.Perm.cons _ (List.Perm.trans ?_ (ih.append_left (h b)))
    rw [← List.append_assoc, ← List.append_assoc]
    exact (List.perm_append_comm).append_right _

theorem flatMap_swap_perm {α β γ : Type _} (l1 : List α) (l2 : List β)
    (f : α → β → γ) :
    (l1.flatMap fun a => l2.map fun b => f a b).Perm
      (l2.flatMap fun b => l1.map fun a => f a b) := by
  induction l1 with
  | nil => simp
  | cons a l ih =>
    simp only [List.flatMap_cons, List.map_cons]
    exact (List.Perm.append_left (l2.map (f a)) ih).trans
      (map_append_flatMap_perm l2 (f a) (fun b => l.map fun a => f a b))

theorem draw_label_inks (s : GState) (FONT_NAME : String)
    (stringWidth : String → ℚ → ℚ) (facility name : String) (date : Date)
    (timing : String) (use_hiragana show_date show_facility : Bool)
    (name_reading : String) :
    inksFrom s (draw_label FONT_NAME stringWidth facility name date timing
        use_hiragana show_date show_facility name_reading)
      = (let cx := LABEL_WIDTH / 2
         let fcl := show_facility && !(facility == "")
         let y1 := (if fcl then LABEL_HEIGHT - 4 * mm else LABEL_HEIGHT)
           - 6 * mm
         let line_y := if !show_date then y1 - 1 * mm else y1 - 2 * mm
         let col :=
           if date.weekday = 6 then Color.red
           else if date.weekday = 5 then Color.blue
           else Color.black
         let box_top := if show_date then line_y - 24 * mm else line_y
         let box_center_y := (3 / 2) * mm + (box_top - (3 / 2) * mm) / 2
         let display_text := if use_hiragana then hiraganaGet timing
           else timing
         let font_size : ℚ :=
           if display_text.length ≤ 3 then 26
           else if display_text.length ≤ 5 then 20
           else if display_text.length ≤ 7 then 16
           else 14
         let tw := stringWidth display_text font_size
         (if fcl then
            [Ink.text cx (LABEL_HEIGHT - 4 * mm) facility Color.black
               FONT_NAME 8]
          else [])
         ++ [Ink.text cx y1 (name ++ " 様") Color.black FONT_NAME
               (if name.length ≤ 6 then 13 else 11),
             Ink.seg (2 * mm) line_y (LABEL_WIDTH - 2 * mm) line_y
               Color.black]
         ++ (if show_date then
               [Ink.text cx (line_y - 11 * mm)
                  (toString date.month ++ "/" ++ toString date.day) col
                  FONT_NAME 23,
                Ink.text cx (line_y - 19 * mm)
                  ("(" ++ WEEKDAYS.getD date.weekday "" ++ ")") col
                  FONT_NAME 13]
             else [])
         ++ [Ink.text cx box_center_y display_text Color.black FONT_NAME
               font_size,
             Ink.seg (cx - tw / 2) (box_center_y - 10) (cx + tw / 2)
               (box_center_y - 10) Color.black]) := by
  cases hf : show_facility && !(facility == "") <;>
    cases show_date <;>
      simp [draw_label, inksFrom, applyCmd, hf]


/-! ### Extraction lemmas -/

theorem showPage_not_mem_draw_label (FONT_NAME : String)
    (stringWidth : String → ℚ → ℚ) (facility name : String) (date : Date)
    (timing : String) (use_hiragana show_date show_facility : Bool)
    (name_reading : String) :
    Cmd.showPage ∉ draw_label FONT_NAME stringWidth facility name date
      timing use_hiragana show_date show_facility name_reading := by
  cases hf : show_facility && !(facility == "") <;> cases show_date <;>
    simp [draw_label, hf]

theorem lastTextString_draw_label (s : GState) (FONT_NAME : String)
    (stringWidth : String → ℚ → ℚ) (facility name : String) (date : Date)
    (timing : String) (use_hiragana show_date show_facility : Bool)
    (name_reading : String) :
    lastTextString s (draw_label FONT_NAME stringWidth facility name date
        timing use_hiragana show_date show_facility name_reading)
      = some (if use_hiragana then hiraganaGet timing else timing) := by
  rw [lastTextString, draw_label_inks]
  cases hf : show_facility && !(facility == "") <;> cases show_date <;>
    simp [hf, inkTextString]

theorem lastTextSize_draw_label (s : GState) (FONT_NAME : String)
    (stringWidth : String → ℚ → ℚ) (facility name : String) (date : Date)
    (timing : String) (use_hiragana show_date show_facility : Bool)
    (name_reading : String) :
    lastTextSize s (draw_label FONT_NAME stringWidth facility name date
        timing use_hiragana show_date show_facility name_reading)
      = some (if (if use_hiragana then hiraganaGet timing
                  else timing).length ≤ 3 then 26
              else if (if use_hiragana then hiraganaGet timing
                  else timing).length ≤ 5 then 20
              else if (if use_hiragana then hiraganaGet timing
                  else timing).length ≤ 7 then 16
              else 14) := by
  rw [lastTextSize, draw_label_inks]
  cases hf : show_facility && !(facility == "") <;> cases show_date <;>
    simp [hf, inkTextSize]

/-! ### Claim theorems -/

/-- C1: for every job with `days ≥ 1` and a non-empty timing list,
`generate_pdf` emits one label render per (day-offset, timing) pair —
`days × |timings|` renders in all — with a single page break between
consecutive renders and none before the first or after the last, and no
render itself contains a page break. -/
theorem C1_page_count (FONT_NAME : String) (stringWidth : String → ℚ → ℚ)
    (facility name : String) (start_date : Date) (days : Nat)
    (timings : List String)
    (sort_by_date use_hiragana show_date show_facility : Bool)
    (name_reading : String) (hd : 1 ≤ days) (ht : timings ≠ []) :
    generate_pdf FONT_NAME stringWidth facility name start_date days
        timings sort_by_date use_hiragana show_date show_facility
        name_reading
      = List.intercalate [Cmd.showPage]
          ((pairsFor start_date days timings sort_by_date).map (fun p =>
            draw_label FONT_NAME stringWidth facility name p.1 p.2
              use_hiragana show_date show_facility name_reading))
    ∧ (pairsFor start_date days timings sort_by_date).length
        = days * timings.length
    ∧ ∀ p ∈ pairsFor start_date days timings sort_by_date,
        Cmd.showPage ∉ draw_label FONT_NAME stringWidth facility name p.1
          p.2 use_hiragana show_date show_facility name_reading :=
  ⟨generate_pdf_eq_intercalate FONT_NAME stringWidth facility name
      start_date days timings sort_by_date use_hiragana show_date
      show_facility name_reading,
   pairsFor_length start_date days timings sort_by_date,
   fun p _ => showPage_not_mem_draw_label FONT_NAME stringWidth facility
     name p.1 p.2 use_hiragana show_date show_facility name_reading⟩

theorem C1_page_count_witness :
    1 ≤ 1 ∧ (["朝食後"] : List String) ≠ []
    ∧ (generate_pdf "F" (fun _ _ => 0) "" "x" ⟨2024, 1, 1⟩ 1 ["朝食後"]
          false false true true ""
        = List.intercalate [Cmd.showPage]
            ((pairsFor ⟨2024, 1, 1⟩ 1 ["朝食後"] false).map (fun p =>
              draw_label "F" (fun _ _ => 0) "" "x" p.1 p.2 false true true
                ""))
       ∧ (pairsFor ⟨2024, 1, 1⟩ 1 ["朝食後"] false).length
           = 1 * (["朝食後"] : List String).length
       ∧ ∀ p ∈ pairsFor ⟨2024, 1, 1⟩ 1 ["朝食後"] false,
           Cmd.showPage ∉ draw_label "F" (fun _ _ => 0) "" "x" p.1 p.2
             false true true "") :=
  ⟨by decide, by decide,
   C1_page_count "F" (fun _ _ => 0) "" "x" ⟨2024, 1, 1⟩ 1 ["朝食後"] false
     false true true "" (by decide) (by decide)⟩

/-- C2: the page order is timing-major when `sort_by_date` is false (all
day offsets for the first timing, then for the second, …) and day-major
when it is true, with `date = start_date + offset` computed by calendar
arithmetic; in particular the job (name 田中, timings [朝食後, 就寝前],
2 days from 2024-01-01) yields exactly the four pages (1/1 朝食後),
(1/2 朝食後), (1/1 就寝前), (1/2 就寝前) in that order. -/
theorem C2_page_order (FONT_NAME : String) (stringWidth : String → ℚ → ℚ)
    (facility name : String) (start_date : Date) (days : Nat)
    (timings : List String) (use_hiragana show_date show_facility : Bool)
    (name_reading : String) :
    generate_pdf FONT_NAME stringWidth facility name start_date days
        timings false use_hiragana show_date show_facility name_reading
      = List.intercalate [Cmd.showPage]
          ((timings.flatMap (fun timing => (List.range days).map
              (fun day_offset => (addDays start_date day_offset, timing)))).map
            (fun p => draw_label FONT_NAME stringWidth facility name p.1
              p.2 use_hiragana show_date show_facility name_reading))
    ∧ generate_pdf FONT_NAME stringWidth facility name start_date days
        timings true use_hiragana show_date show_facility name_reading
      = List.intercalate [Cmd.showPage]
          (((List.range days).flatMap (fun day_offset => timings.map
              (fun timing => (addDays start_date day_offset, timing)))).map
            (fun p => draw_label FONT_NAME stringWidth facility name p.1
              p.2 use_hiragana show_date show_facility name_reading))
    ∧ pairsFor ⟨2024, 1, 1⟩ 2 ["朝食後", "就寝前"] false
        = [(⟨2024, 1, 1⟩, "朝食後"), (⟨2024, 1, 2⟩, "朝食後"),
           (⟨2024, 1, 1⟩, "就寝前"), (⟨2024, 1, 2⟩, "就寝前")]
    ∧ generate_pdf FONT_NAME stringWidth facility "田中" ⟨2024, 1, 1⟩ 2
        ["朝食後", "就寝前"] false use_hiragana show_date show_facility
        name_reading
      = List.intercalate [Cmd.showPage]
          [draw_label FONT_NAME stringWidth facility "田中" ⟨2024, 1, 1⟩
             "朝食後" use_hiragana show_date show_facility name_reading,
           draw_label FONT_NAME stringWidth facility "田中" ⟨2024, 1, 2⟩
             "朝食後" use_hiragana show_date show_facility name_reading,
           draw_label FONT_NAME stringWidth facility "田中" ⟨2024, 1, 1⟩
             "就寝前" use_hiragana show_date show_facility name_reading,
           draw_label FONT_NAME stringWidth facility "田中" ⟨2024, 1, 2⟩
             "就寝前" use_hiragana show_date show_facility name_reading]
    ∧ Date.weekday ⟨2024, 1, 1⟩ = 0 := by
  refine ⟨?_, ?_, by decide, ?_, by decide⟩
  · rw [generate_pdf_eq_intercalate]
    simp [pairsFor]
  · rw [generate_pdf_eq_intercalate]
    simp [pairsFor]
  · rw [generate_pdf_eq_intercalate,
      show pairsFor ⟨2024, 1, 1⟩ 2 ["朝食後", "就寝前"] false
          = [(⟨2024, 1, 1⟩, "朝食後"), (⟨2024, 1, 2⟩, "朝食後"),
             (⟨2024, 1, 1⟩, "就寝前"), (⟨2024, 1, 2⟩, "就寝前")]
        from by decide]
    simp

/-- C3: the two page-ordering modes enumerate the same multiset of
(date, timing) pages and hence the same multiset of label renders; they
differ only in order. -/
theorem C3_modes_same_multiset (start_date : Date) (days : Nat)
    (timings : List String) :
    (pairsFor start_date days timings false).Perm
      (pairsFor start_date days timings true)
    ∧ ∀ (FONT_NAME : String) (stringWidth : String → ℚ → ℚ)
        (facility name : String)
        (use_hiragana show_date show_facility : Bool)
        (name_reading : String),
        ((pairsFor start_date days timings false).map (fun p =>
            draw_label FONT_NAME stringWidth facility name p.1 p.2
              use_hiragana show_date show_facility name_reading)).Perm
          ((pairsFor start_date days timings true).map (fun p =>
            draw_label FONT_NAME stringWidth facility name p.1 p.2
              use_hiragana show_date show_facility name_reading)) := by
  have hp : (pairsFor start_date days timings false).Perm
      (pairsFor start_date days timings true) := by
    simp only [pairsFor, Bool.false_eq_true, reduceIte]
    exact flatMap_swap_perm timings (List.range days)
      (fun timing day_offset => (addDays start_date day_offset, timing))
  exact ⟨hp, fun _ _ _ _ _ _ _ _ => hp.map _⟩

/-- C4: the timing text a page draws (its last drawn string) is the
localized substitute from the fixed 8-entry `HIRAGANA_MAP` when
`use_hiragana` is true and the table has an entry for that exact string,
and the input string unchanged otherwise; 朝食後 localizes to あさ, and
the unmapped 頓服 renders unchanged under either toggle value. -/
theorem C4_localized_text (s : GState) (FONT_NAME : String)
    (stringWidth : String → ℚ → ℚ) (facility name : String) (date : Date)
    (timing : String) (use_hiragana show_date show_facility : Bool)
    (name_reading : String) :
    lastTextString s (draw_label FONT_NAME stringWidth facility name date
        timing use_hiragana show_date show_facility name_reading)
      = some (if use_hiragana then hiraganaGet timing else timing)
    ∧ HIRAGANA_MAP.length = 8
    ∧ hiraganaGet "朝食後" = "あさ"
    ∧ HIRAGANA_MAP.lookup "頓服" = none
    ∧ lastTextString s (draw_label FONT_NAME stringWidth facility name
        date "朝食後" true show_date show_facility name_reading)
      = some "あさ"
    ∧ lastTextString s (draw_label FONT_NAME stringWidth facility name
        date "朝食後" false show_date show_facility name_reading)
      = some "朝食後"
    ∧ lastTextString s (draw_label FONT_NAME stringWidth facility name
        date "頓服" use_hiragana show_date show_facility name_reading)
      = some "頓服" := by
  refine ⟨lastTextString_draw_label s FONT_NAME stringWidth facility name
    date timing use_hiragana show_date show_facility name_reading,
    by decide, by decide, by decide, ?_, ?_, ?_⟩
  · rw [lastTextString_draw_label]; decide
  · rw [lastTextString_draw_label]; decide
  · rw [lastTextString_draw_label]; cases use_hiragana <;> decide

/-- C5: the font size set for the timing text is chosen from the
character length of the post-localization display string: length ≤ 3
gives 26 pt, 4–5 gives 20 pt, 6–7 gives 16 pt, length ≥ 8 gives 14 pt. -/
theorem C5_timing_font_size (s : GState) (FONT_NAME : String)
    (stringWidth : String → ℚ → ℚ) (facility name : String) (date : Date)
    (timing : String) (use_hiragana show_date show_facility : Bool)
    (name_reading : String) :
    lastTextSize s (draw_label FONT_NAME stringWidth facility name date
        timing use_hiragana show_date show_facility name_reading)
      = some
          (let display := if use_hiragana then hiraganaGet timing
             else timing
           if display.length ≤ 3 then 26
           else if display.length ≤ 5 then 20
           else if display.length ≤ 7 then 16
           else 14) :=
  lastTextSize_draw_label s FONT_NAME stringWidth facility name date
    timing use_hiragana show_date show_facility name_reading

/-- C9: `generate_pdf` does not validate its inputs: on a job with
`days = 0` or an empty timing list it raises nothing and performs zero
label renders, finalizing a document with no label pages. -/
theorem C9_no_validation (FONT_NAME : String)
    (stringWidth : String → ℚ → ℚ) (facility name : String)
    (start_date : Date) (days : Nat) (timings : List String)
    (sort_by_date use_hiragana show_date show_facility : Bool)
    (name_reading : String) (h : days = 0 ∨ timings = []) :
    generate_pdf FONT_NAME stringWidth facility name start_date days
        timings sort_by_date use_hiragana show_date show_facility
        name_reading = [] := by
  have hlen : (pairsFor start_date days timings sort_by_date).length = 0 := by
    rw [pairsFor_length]
    rcases h with h | h <;> simp [h]
  rw [generate_pdf_eq_intercalate, List.length_eq_zero.mp hlen]
  rfl

theorem C9_no_validation_witness :
    (0 = 0 ∨ (["朝食後"] : List String) = [])
    ∧ generate_pdf "F" (fun _ _ => 0) "" "x" ⟨2024, 1, 1⟩ 0 ["朝食後"]
        false false true true "" = [] :=
  ⟨Or.inl rfl,
   C9_no_validation "F" (fun _ _ => 0) "" "x" ⟨2024, 1, 1⟩ 0 ["朝食後"]
     false false true true "" (Or.inl rfl)⟩

/-- C10: on every page the timing text (the last text drawn) and its
underline (the last line stroked) are drawn in black, whatever the date's
weekday and whatever colors were previously in effect. -/
theorem C10_timing_black (s : GState) (FONT_NAME : String)
    (stringWidth : String → ℚ → ℚ) (facility name : String) (date : Date)
    (timing : String) (use_hiragana show_date show_facility : Bool)
    (name_reading : String) :
    lastTextFill s (draw_label FONT_NAME stringWidth facility name date
        timing use_hiragana show_date show_facility name_reading)
      = some Color.black
    ∧ lastSegStroke s (draw_label FONT_NAME stringWidth facility name date
        timing use_hiragana show_date show_facility name_reading)
      = some Color.black := by
  constructor
  · rw [lastTextFill, draw_label_inks]
    cases hf : show_facility && !(facility == "") <;> cases show_date <;>
      simp [hf, inkTextFill]
  · rw [lastSegStroke, draw_label_inks]
    cases hf : show_facility && !(facility == "") <;> cases show_date <;>
      simp [hf, inkSegStroke]

/-- C6: the patient-name line has text `name ++ " 様"` and font size 13
when the name is at most 6 characters long, 11 otherwise; a 6-character
name gets 13 pt and a 7-character name gets 11 pt. -/
theorem C6_name_line (s : GState) (FONT_NAME : String)
    (stringWidth : String → ℚ → ℚ) (facility name : String) (date : Date)
    (timing : String) (use_hiragana show_date show_facility : Bool)
    (name_reading : String) :
    Ink.text (LABEL_WIDTH / 2)
        ((if show_facility && !(facility == "") then LABEL_HEIGHT - 4 * mm
          else LABEL_HEIGHT) - 6 * mm)
        (name ++ " 様") Color.black FONT_NAME
        (if name.length ≤ 6 then 13 else 11)
      ∈ inksFrom s (draw_label FONT_NAME stringWidth facility name date
          timing use_hiragana show_date show_facility name_reading)
    ∧ Ink.text (LABEL_WIDTH / 2)
        ((if show_facility && !(facility == "") then LABEL_HEIGHT - 4 * mm
          else LABEL_HEIGHT) - 6 * mm)
        ("佐藤あやめ康" ++ " 様") Color.black FONT_NAME 13
      ∈ inksFrom s (draw_label FONT_NAME stringWidth facility "佐藤あやめ康"
          date timing use_hiragana show_date show_facility name_reading)
    ∧ Ink.text (LABEL_WIDTH / 2)
        ((if show_facility && !(facility == "") then LABEL_HEIGHT - 4 * mm
          else LABEL_HEIGHT) - 6 * mm)
        ("佐藤あやめ康子" ++ " 様") Color.black FONT_NAME 11
      ∈ inksFrom s (draw_label FONT_NAME stringWidth facility "佐藤あやめ康子"
          date timing use_hiragana show_date show_facility name_reading) := by
  have H : ∀ nm : String,
      Ink.text (LABEL_WIDTH / 2)
          ((if show_facility && !(facility == "") then LABEL_HEIGHT - 4 * mm
            else LABEL_HEIGHT) - 6 * mm)
          (nm ++ " 様") Color.black FONT_NAME
          (if nm.length ≤ 6 then 13 else 11)
        ∈ inksFrom s (draw_label FONT_NAME stringWidth facility nm date
            timing use_hiragana show_date show_facility name_reading) := by
    intro nm
    rw [draw_label_inks]
    cases hf : show_facility && !(facility == "") <;> cases show_date <;>
      simp [hf]
  exact ⟨H name, H "佐藤あやめ康", H "佐藤あやめ康子"⟩

/-- C7: when the date is shown, the date digits and the weekday label are
both drawn in red when the weekday index is 6 (Sunday, Monday = 0
numbering), blue when it is 5 (Saturday), black otherwise; 2024-01-07 is
a Sunday and is drawn in red. -/
theorem C7_weekday_colors (s : GState) (FONT_NAME : String)
    (stringWidth : String → ℚ → ℚ) (facility name : String) (date : Date)
    (timing : String) (use_hiragana show_facility : Bool)
    (name_reading : String) :
    Ink.text (LABEL_WIDTH / 2)
        ((if show_facility && !(facility == "") then LABEL_HEIGHT - 4 * mm
          else LABEL_HEIGHT) - 6 * mm - 2 * mm - 11 * mm)
        (toString date.month ++ "/" ++ toString date.day)
        (if date.weekday = 6 then Color.red
         else if date.weekday = 5 then Color.blue
         else Color.black)
        FONT_NAME 23
      ∈ inksFrom s (draw_label FONT_NAME stringWidth facility name date
          timing use_hiragana true show_facility name_reading)
    ∧ Ink.text (LABEL_WIDTH / 2)
        ((if show_facility && !(facility == "") then LABEL_HEIGHT - 4 * mm
          else LABEL_HEIGHT) - 6 * mm - 2 * mm - 19 * mm)
        ("(" ++ WEEKDAYS.getD date.weekday "" ++ ")")
        (if date.weekday = 6 then Color.red
         else if date.weekday = 5 then Color.blue
         else Color.black)
        FONT_NAME 13
      ∈ inksFrom s (draw_label FONT_NAME stringWidth facility name date
          timing use_hiragana true show_facility name_reading)
    ∧ Date.weekday ⟨2024, 1, 7⟩ = 6
    ∧ Ink.text (LABEL_WIDTH / 2)
        ((if show_facility && !(facility == "") then LABEL_HEIGHT - 4 * mm
          else LABEL_HEIGHT) - 6 * mm - 2 * mm - 11 * mm)
        "1/7" Color.red FONT_NAME 23
      ∈ inksFrom s (draw_label FONT_NAME stringWidth facility name
          ⟨2024, 1, 7⟩ timing use_hiragana true show_facility
          name_reading) := by
  have H : ∀ d : Date,
      Ink.text (LABEL_WIDTH / 2)
          ((if show_facility && !(facility == "") then LABEL_HEIGHT - 4 * mm
            else LABEL_HEIGHT) - 6 * mm - 2 * mm - 11 * mm)
          (toString d.month ++ "/" ++ toString d.day)
          (if d.weekday = 6 then Color.red
           else if d.weekday = 5 then Color.blue
           else Color.black)
          FONT_NAME 23
        ∈ inksFrom s (draw_label FONT_NAME stringWidth facility name d
            timing use_hiragana true show_facility name_reading) := by
    intro d
    rw [draw_label_inks]
    cases hf : show_facility && !(facility == "") <;> simp [hf]
  refine ⟨H date, ?_, by decide, ?_⟩
  · rw [draw_label_inks]
    cases hf : show_facility && !(facility == "") <;> simp [hf]
  · exact H ⟨2024, 1, 7⟩

/-- C8: the separator line spans x = 2 mm to x = W − 2 mm at
`lineY = cursor − 1 mm` without the date and `cursor − 2 mm` with it; the
timing-text box has bottom 1.5 mm and top `lineY − 24 mm` when the date
is shown but top exactly `lineY` when it is not, and the timing text is
drawn centered at `(top + bottom) / 2`. -/
theorem C8_separator_and_box (s : GState) (FONT_NAME : String)
    (stringWidth : String → ℚ → ℚ) (facility name : String) (date : Date)
    (timing : String) (use_hiragana show_date show_facility : Bool)
    (name_reading : String) :
    (let y_cursor := (if show_facility && !(facility == "") then
        LABEL_HEIGHT - 4 * mm else LABEL_HEIGHT) - 6 * mm
     let line_y := if show_date then y_cursor - 2 * mm
       else y_cursor - 1 * mm
     let box_top := if show_date then line_y - 24 * mm else line_y
     let box_bottom : ℚ := (3 / 2) * mm
     let display := if use_hiragana then hiraganaGet timing else timing
     let font_size : ℚ :=
       if display.length ≤ 3 then 26
       else if display.length ≤ 5 then 20
       else if display.length ≤ 7 then 16
       else 14
     Ink.seg (2 * mm) line_y (LABEL_WIDTH - 2 * mm) line_y Color.black
        ∈ inksFrom s (draw_label FONT_NAME stringWidth facility name date
            timing use_hiragana show_date show_facility name_reading)
     ∧ Ink.text (LABEL_WIDTH / 2) ((box_top + box_bottom) / 2) display
          Color.black FONT_NAME font_size
        ∈ inksFrom s (draw_label FONT_NAME stringWidth facility name date
            timing use_hiragana show_date show_facility
            name_reading)) := by
  have ecenter : ∀ top : ℚ,
      (top + (3 / 2) * mm) / 2 = (3 / 2) * mm + (top - (3 / 2) * mm) / 2 :=
    fun top => by ring
  dsimp only
  constructor
  · rw [draw_label_inks]
    cases hf : show_facility && !(facility == "") <;> cases show_date <;>
      simp [hf]
  · rw [ecenter, draw_label_inks]
    cases hf : show_facility && !(facility == "") <;> cases show_date <;>
      simp [hf]

end MedicationLabel
